import Mathlib

/-!
Verification of the TensorsLab CLI clients (tl-image / tl-video).

This file gives a shallow embedding of the polling task-orchestration core of
the two scripts `tensorslab_image.py` and `tensorslab_video.py`:

* the status lookup tables `IMAGE_STATUS` / `TASK_STATUS`;
* `query_task_status` (the status-query wrapper that turns a transport error
  or a non-1000 response code into `None`);
* the `wait_and_download` polling loop, modelled generically over a stream of
  query responses (`queries : Nat -> Option RawResponse`), a download step
  (`downloadFiles`), and discrete time in which each sleep advances the
  elapsed clock by `interval` seconds;
* the per-URL download loop (`download_results`);
* the filename-extension derivation of `download_image` (image) and of the
  video download branch;
* the multipart form construction of `generate_image` / `generate_video`;
* the pre-submission validation of the video `main`;
* the file-handle lifecycle of the submission step.

Dictionaries coming from the remote API are modelled by structures whose
fields are the keys the scripts actually read, plus a count of any other
keys, so that Python dict truthiness (`if not task_data`) is representable.
-/

/-- One status payload, the `data` dictionary returned by the status query.
The scripts read the status key (`image_status` for image, `task_status` for
video), the `url` list, and the error-message key (`error_message` for image,
`message` for video); `extraKeys` counts any other keys so that dict
truthiness is faithful. -/
structure TaskData where
  status : Option Int
  url : Option (List String)
  message : Option String
  extraKeys : Nat
deriving DecidableEq, Repr

/-- Python dict truthiness: a dict is falsy exactly when it has no keys. -/
def TaskData.isEmpty (d : TaskData) : Bool :=
  d.status.isNone && d.url.isNone && d.message.isNone && (d.extraKeys == 0)

/-- The empty dict `\x7b\x7d`, the default of `result.get("data", ...)`. -/
def emptyTaskData : TaskData := ⟨none, none, none, 0⟩

/-- The JSON body of one status-query HTTP response: `result.get("code")`
and `result.get("data")` (absent `data` is `none`). -/
structure RawResponse where
  code : Option Int
  data : Option TaskData
deriving DecidableEq, Repr

/-- Embedding of `query_task_status` (image script lines 202-241, video
script lines 213-253), as a function of the transport outcome: `none` stands
for a raised exception, `some r` for a parsed JSON body `r`.  On response
code 1000 it returns the `data` dict (defaulting to the empty dict), on any
other code or on an exception it returns `None`. -/
def query_task_status (resp : Option RawResponse) : Option TaskData :=
  match resp with
  | none => none
  | some r => if r.code = some 1000 then some (r.data.getD emptyTaskData) else none

/-- The `if not task_data:` check at the top of the polling loop: both a
`None` result and an empty dict are falsy and lead to a retry. -/
def usableData (td : Option TaskData) : Option TaskData :=
  match td with
  | none => none
  | some d => if d.isEmpty then none else some d

/-- Embedding of the dict `IMAGE_STATUS` (image script lines 39-44). -/
def IMAGE_STATUS (c : Int) : Option String :=
  if c = 1 then some "Queued"
  else if c = 2 then some "Processing"
  else if c = 3 then some "Completed"
  else if c = 4 then some "Failed"
  else none

/-- Embedding of the dict `TASK_STATUS` (video script lines 32-38). -/
def TASK_STATUS (c : Int) : Option String :=
  if c = 1 then some "Pending"
  else if c = 2 then some "Processing"
  else if c = 3 then some "Completed"
  else if c = 4 then some "Failed"
  else if c = 5 then some "Uploading"
  else none

/-- `IMAGE_STATUS.get(status, "Unknown")` on the possibly missing
`image_status` field. -/
def image_status_text (s : Option Int) : String :=
  match s with
  | none => "Unknown"
  | some c => (IMAGE_STATUS c).getD "Unknown"

/-- `TASK_STATUS.get(status, "Unknown")` on the possibly missing
`task_status` field. -/
def task_status_text (s : Option Int) : String :=
  match s with
  | none => "Unknown"
  | some c => (TASK_STATUS c).getD "Unknown"

/-- How one call of `wait_and_download` ends: a normal return carrying the
result URLs and the downloaded file paths, a `sys.exit(1)` on task failure,
or a `sys.exit(1)` on timeout (carrying the elapsed time at the final loop
check). -/
inductive PollResult where
  | completed (urls : List String) (files : List String)
  | failed (msg : String)
  | timeout (elapsed : Nat)
deriving DecidableEq, Repr

/-- Embedding of the polling loop of `wait_and_download` (image script lines
244-311, video script lines 256-339; the two loops are the same code up to
the key names already folded into `TaskData` and the download step, which is
the `downloadFiles` parameter).  `queries k` is the transport outcome of the
k-th status query; each non-terminal iteration sleeps `interval` seconds, so
the elapsed clock grows by `interval`; the loop guard `elapsed < timeout` is
the `while time.time() - start_time < timeout` check. -/
def wait_and_download (queries : Nat → Option RawResponse)
    (downloadFiles : List String → List String)
    (interval timeout : Nat) (hi : 0 < interval) (k elapsed : Nat) : PollResult :=
  if h : elapsed < timeout then
    match usableData (query_task_status (queries k)) with
    | none => wait_and_download queries downloadFiles interval timeout hi (k + 1) (elapsed + interval)
    | some d =>
      if d.status = some 3 then
        let urls := d.url.getD []
        if urls.isEmpty then PollResult.completed urls []
        else PollResult.completed urls (downloadFiles urls)
      else if d.status = some 4 then
        PollResult.failed (d.message.getD "Unknown error")
      else
        wait_and_download queries downloadFiles interval timeout hi (k + 1) (elapsed + interval)
  else PollResult.timeout elapsed
termination_by timeout - elapsed
decreasing_by all_goals omega

/-- The k-th observation of the loop: the status payload after the
transport, response-code and truthiness checks. -/
def obsData (queries : Nat → Option RawResponse) (k : Nat) : Option TaskData :=
  usableData (query_task_status (queries k))

/-- The k-th observation makes the loop sleep and retry: it is either
unusable or reports a status that is neither 3 (completed) nor 4 (failed). -/
def retryObs (queries : Nat → Option RawResponse) (k : Nat) : Prop :=
  ∀ d, obsData queries k = some d → d.status ≠ some 3 ∧ d.status ≠ some 4

/-- Some status query performed by the loop started at index `k` and elapsed
clock `elapsed` reports the completed raw code 3 strictly before the
deadline, all queries before it being retries. -/
def CompletesWithin (queries : Nat → Option RawResponse)
    (interval timeout k elapsed : Nat) : Prop :=
  ∃ j, k ≤ j ∧ elapsed + (j - k) * interval < timeout ∧
    (∃ d, obsData queries j = some d ∧ d.status = some 3) ∧
    ∀ i, k ≤ i → i < j → retryObs queries i

section WaitUnfold

variable (queries : Nat → Option RawResponse) (dF : List String → List String)
variable (interval timeout : Nat) (hi : 0 < interval)

lemma wait_eq_timeout (k e : Nat) (h : ¬ e < timeout) :
    wait_and_download queries dF interval timeout hi k e = PollResult.timeout e := by
  rw [wait_and_download]
  simp [h]

lemma wait_eq_retry_none (k e : Nat) (h : e < timeout)
    (hobs : obsData queries k = none) :
    wait_and_download queries dF interval timeout hi k e =
      wait_and_download queries dF interval timeout hi (k + 1) (e + interval) := by
  rw [wait_and_download]
  unfold obsData at hobs
  simp [h, hobs]

lemma wait_eq_completed (k e : Nat) (h : e < timeout) (d : TaskData)
    (hobs : obsData queries k = some d) (h3 : d.status = some 3) :
    wait_and_download queries dF interval timeout hi k e =
      (if (d.url.getD []).isEmpty then PollResult.completed (d.url.getD []) []
       else PollResult.completed (d.url.getD []) (dF (d.url.getD []))) := by
  rw [wait_and_download]
  unfold obsData at hobs
  simp [h, hobs, h3]

lemma wait_eq_failed (k e : Nat) (h : e < timeout) (d : TaskData)
    (hobs : obsData queries k = some d) (h3 : d.status ≠ some 3)
    (h4 : d.status = some 4) :
    wait_and_download queries dF interval timeout hi k e =
      PollResult.failed (d.message.getD "Unknown error") := by
  rw [wait_and_download]
  unfold obsData at hobs
  simp [h, hobs, h3, h4]

lemma wait_eq_retry_status (k e : Nat) (h : e < timeout) (d : TaskData)
    (hobs : obsData queries k = some d) (h3 : d.status ≠ some 3)
    (h4 : d.status ≠ some 4) :
    wait_and_download queries dF interval timeout hi k e =
      wait_and_download queries dF interval timeout hi (k + 1) (e + interval) := by
  rw [wait_and_download]
  unfold obsData at hobs
  simp [h, hobs, h3, h4]

end WaitUnfold

lemma poll_time_shift (interval k j e : Nat) (hj : k + 1 ≤ j) :
    e + (j - k) * interval = (e + interval) + (j - (k + 1)) * interval := by
  have hjk : j - k = (j - (k + 1)) + 1 := by omega
  rw [hjk, Nat.succ_mul]
  generalize (j - (k + 1)) * interval = p
  omega

lemma CompletesWithin_step (queries : Nat → Option RawResponse)
    (interval timeout k e : Nat) (hr : retryObs queries k) :
    CompletesWithin queries interval timeout k e ↔
      CompletesWithin queries interval timeout (k + 1) (e + interval) := by
  constructor
  · rintro ⟨j, hkj, htime, ⟨d, hd, h3⟩, hpre⟩
    have hj1 : k + 1 ≤ j := by
      rcases Nat.eq_or_lt_of_le hkj with heq | hlt
      · exfalso
        subst heq
        exact (hr d hd).1 h3
      · omega
    refine ⟨j, hj1, ?_, ⟨d, hd, h3⟩, ?_⟩
    · rw [← poll_time_shift interval k j e hj1]
      exact htime
    · intro i hi1 hij
      exact hpre i (by omega) hij
  · rintro ⟨j, hkj, htime, hc, hpre⟩
    refine ⟨j, by omega, ?_, hc, ?_⟩
    · rw [poll_time_shift interval k j e hkj]
      exact htime
    · intro i hki hij
      rcases Nat.eq_or_lt_of_le hki with heq | hlt
      · subst heq
        exact hr
      · exact hpre i (by omega) hij

lemma CompletesWithin_deadline (queries : Nat → Option RawResponse)
    (interval timeout k e : Nat) (h : ¬ e < timeout) :
    ¬ CompletesWithin queries interval timeout k e := by
  rintro ⟨j, _, htime, _, _⟩
  have hle : e ≤ e + (j - k) * interval := Nat.le_add_right _ _
  omega

lemma wait_spec_aux (queries : Nat → Option RawResponse)
    (dF : List String → List String) (interval timeout : Nat) (hi : 0 < interval) :
    ∀ fuel k e, timeout - e ≤ fuel →
      ((∃ us fs, wait_and_download queries dF interval timeout hi k e = PollResult.completed us fs)
          ↔ CompletesWithin queries interval timeout k e)
      ∧ (∀ t, wait_and_download queries dF interval timeout hi k e = PollResult.timeout t →
          timeout ≤ t)
      ∧ ((∀ j, k ≤ j → e + (j - k) * interval < timeout → retryObs queries j) →
          ∃ t, wait_and_download queries dF interval timeout hi k e = PollResult.timeout t) := by
  intro fuel
  induction fuel with
  | zero =>
    intro k e hle
    have h : ¬ e < timeout := by omega
    rw [wait_eq_timeout queries dF interval timeout hi k e h]
    refine ⟨⟨?_, ?_⟩, ?_, ?_⟩
    · rintro ⟨us, fs, hcon⟩
      simp at hcon
    · intro hc
      exact absurd hc (CompletesWithin_deadline queries interval timeout k e h)
    · intro t ht
      injection ht with hte
      omega
    · intro _
      exact ⟨e, rfl⟩
  | succ n ih =>
    intro k e hle
    by_cases h : e < timeout
    · cases hobs : obsData queries k with
      | none =>
        rw [wait_eq_retry_none queries dF interval timeout hi k e h hobs]
        have hr : retryObs queries k := by
          intro d hd
          rw [hobs] at hd
          cases hd
        obtain ⟨ih1, ih2, ih3⟩ := ih (k + 1) (e + interval) (by omega)
        refine ⟨?_, ih2, ?_⟩
        · rw [ih1]
          exact (CompletesWithin_step queries interval timeout k e hr).symm
        · intro hall
          apply ih3
          intro j hj htj
          apply hall j (by omega)
          rw [poll_time_shift interval k j e hj]
          exact htj
      | some d =>
        by_cases h3 : d.status = some 3
        · rw [wait_eq_completed queries dF interval timeout hi k e h d hobs h3]
          refine ⟨⟨?_, ?_⟩, ?_, ?_⟩
          · intro _
            refine ⟨k, le_refl k, by simpa using h, ⟨d, hobs, h3⟩, ?_⟩
            intro i hik hik2
            omega
          · intro _
            split
            · exact ⟨_, _, rfl⟩
            · exact ⟨_, _, rfl⟩
          · intro t ht
            split at ht <;> simp at ht
          · intro hall
            exfalso
            have hrk := hall k (le_refl k) (by simpa using h)
            exact (hrk d hobs).1 h3
        · by_cases h4 : d.status = some 4
          · rw [wait_eq_failed queries dF interval timeout hi k e h d hobs h3 h4]
            refine ⟨⟨?_, ?_⟩, ?_, ?_⟩
            · rintro ⟨us, fs, hcon⟩
              simp at hcon
            · rintro ⟨j, hkj, htime, ⟨d2, hd2, h32⟩, hpre⟩
              exfalso
              rcases Nat.eq_or_lt_of_le hkj with heq | hlt
              · subst heq
                rw [hobs] at hd2
                injection hd2 with hdd
                subst hdd
                exact h3 h32
              · exact absurd h4 (hpre k (le_refl k) hlt d hobs).2
            · intro t ht
              simp at ht
            · intro hall
              exfalso
              have hrk := hall k (le_refl k) (by simpa using h)
              exact (hrk d hobs).2 h4
          · rw [wait_eq_retry_status queries dF interval timeout hi k e h d hobs h3 h4]
            have hr : retryObs queries k := by
              intro d2 hd2
              rw [hobs] at hd2
              injection hd2 with hdd
              subst hdd
              exact ⟨h3, h4⟩
            obtain ⟨ih1, ih2, ih3⟩ := ih (k + 1) (e + interval) (by omega)
            refine ⟨?_, ih2, ?_⟩
            · rw [ih1]
              exact (CompletesWithin_step queries interval timeout k e hr).symm
            · intro hall
              apply ih3
              intro j hj htj
              apply hall j (by omega)
              rw [poll_time_shift interval k j e hj]
              exact htj
    · rw [wait_eq_timeout queries dF interval timeout hi k e h]
      refine ⟨⟨?_, ?_⟩, ?_, ?_⟩
      · rintro ⟨us, fs, hcon⟩
        simp at hcon
      · intro hc
        exact absurd hc (CompletesWithin_deadline queries interval timeout k e h)
      · intro t ht
        injection ht with hte
        omega
      · intro _
        exact ⟨e, rfl⟩

lemma wait_congr (dF : List String → List String) (interval timeout : Nat)
    (hi : 0 < interval) :
    ∀ fuel k e (q1 q2 : Nat → Option RawResponse), timeout - e ≤ fuel →
      (∀ j, k ≤ j → q1 j = q2 j) →
      wait_and_download q1 dF interval timeout hi k e =
        wait_and_download q2 dF interval timeout hi k e := by
  intro fuel
  induction fuel with
  | zero =>
    intro k e q1 q2 hle hq
    have h : ¬ e < timeout := by omega
    rw [wait_eq_timeout q1 dF interval timeout hi k e h,
      wait_eq_timeout q2 dF interval timeout hi k e h]
  | succ n ih =>
    intro k e q1 q2 hle hq
    by_cases h : e < timeout
    · have hk : obsData q1 k = obsData q2 k := by
        unfold obsData
        rw [hq k (le_refl k)]
      cases hobs : obsData q2 k with
      | none =>
        rw [wait_eq_retry_none q1 dF interval timeout hi k e h (hk.trans hobs),
          wait_eq_retry_none q2 dF interval timeout hi k e h hobs]
        exact ih (k + 1) (e + interval) q1 q2 (by omega) (fun j hj => hq j (by omega))
      | some d =>
        by_cases h3 : d.status = some 3
        · rw [wait_eq_completed q1 dF interval timeout hi k e h d (hk.trans hobs) h3,
            wait_eq_completed q2 dF interval timeout hi k e h d hobs h3]
        · by_cases h4 : d.status = some 4
          · rw [wait_eq_failed q1 dF interval timeout hi k e h d (hk.trans hobs) h3 h4,
              wait_eq_failed q2 dF interval timeout hi k e h d hobs h3 h4]
          · rw [wait_eq_retry_status q1 dF interval timeout hi k e h d (hk.trans hobs) h3 h4,
              wait_eq_retry_status q2 dF interval timeout hi k e h d hobs h3 h4]
            exact ih (k + 1) (e + interval) q1 q2 (by omega) (fun j hj => hq j (by omega))
    · rw [wait_eq_timeout q1 dF interval timeout hi k e h,
        wait_eq_timeout q2 dF interval timeout hi k e h]

/-- C1: the polling loop started at index 0 with elapsed clock 0 returns a
Completed result if and only if some status query it performs reports the
completed raw code 3 strictly before the deadline; if every query issued
within the deadline is a retry observation the loop fails with the timeout
error; and any timeout error carries an elapsed time at or after the
deadline, never earlier. -/
theorem wait_and_download_spec (queries : Nat → Option RawResponse)
    (dF : List String → List String) (interval timeout : Nat) (hi : 0 < interval) :
    ((∃ us fs, wait_and_download queries dF interval timeout hi 0 0 =
        PollResult.completed us fs)
      ↔ CompletesWithin queries interval timeout 0 0)
    ∧ (∀ t, wait_and_download queries dF interval timeout hi 0 0 = PollResult.timeout t →
        timeout ≤ t)
    ∧ ((∀ j, j * interval < timeout → retryObs queries j) →
        ∃ t, wait_and_download queries dF interval timeout hi 0 0 = PollResult.timeout t) := by
  obtain ⟨h1, h2, h3⟩ := wait_spec_aux queries dF interval timeout hi timeout 0 0 (by omega)
  refine ⟨h1, h2, ?_⟩
  intro hall
  apply h3
  intro j hj htj
  apply hall j
  simpa using htj

/-- A concrete query stream whose first response already reports the
completed raw code 3 with one result URL. -/
def qW1 : Nat → Option RawResponse := fun j =>
  if j = 0 then some ⟨some 1000, some ⟨some 3, some ["http://x/a.png"], none, 0⟩⟩ else none

/-- Witness for C1: on `qW1` the loop returns a Completed result. -/
theorem wait_and_download_spec_witness :
    ∃ us fs, wait_and_download qW1 (fun l => l) 5 300 (Nat.succ_pos 4) 0 0 =
      PollResult.completed us fs := by
  apply (wait_and_download_spec qW1 (fun l => l) 5 300 (Nat.succ_pos 4)).1.mpr
  refine ⟨0, le_refl 0, by decide,
    ⟨⟨some 3, some ["http://x/a.png"], none, 0⟩, by decide, by decide⟩, ?_⟩
  intro i h1 h2
  omega

/-- C2: a usable status payload whose raw code is absent from the kind's
lookup table (image: not 1, 2, 3, 4; video: not 1, 2, 3, 4, 5) makes one
iteration of the polling loop neither crash, nor return, nor raise: the loop
sleeps the poll interval and retries. -/
theorem unknown_status_code_retries (queries : Nat → Option RawResponse)
    (dF : List String → List String) (interval timeout : Nat) (hi : 0 < interval)
    (k e : Nat) (d : TaskData) (he : e < timeout) (hd : obsData queries k = some d)
    (hc : ∀ c, d.status = some c → IMAGE_STATUS c = none ∨ TASK_STATUS c = none) :
    wait_and_download queries dF interval timeout hi k e =
      wait_and_download queries dF interval timeout hi (k + 1) (e + interval) := by
  have h3 : d.status ≠ some 3 := by
    intro hcon
    rcases hc 3 hcon with hI | hT
    · exact absurd hI (by decide)
    · exact absurd hT (by decide)
  have h4 : d.status ≠ some 4 := by
    intro hcon
    rcases hc 4 hcon with hI | hT
    · exact absurd hI (by decide)
    · exact absurd hT (by decide)
  exact wait_eq_retry_status queries dF interval timeout hi k e he d hd h3 h4

/-- A concrete query stream whose first response carries the raw status 7,
absent from both lookup tables. -/
def qW2 : Nat → Option RawResponse := fun j =>
  if j = 0 then some ⟨some 1000, some ⟨some 7, none, none, 0⟩⟩ else none

/-- Witness for C2: on `qW2` the first iteration retries. -/
theorem unknown_status_code_retries_witness :
    wait_and_download qW2 (fun l => l) 5 300 (Nat.succ_pos 4) 0 0 =
      wait_and_download qW2 (fun l => l) 5 300 (Nat.succ_pos 4) 1 5 := by
  refine unknown_status_code_retries qW2 (fun l => l) 5 300 (Nat.succ_pos 4) 0 0
    ⟨some 7, none, none, 0⟩ (by decide) (by decide) ?_
  intro c hcv
  have hcv2 : some (7 : Int) = some c := hcv
  injection hcv2 with h7
  subst h7
  exact Or.inl (by decide)

/-- C3: a poll iteration whose status query fails in transport, returns a
non-success response code, or yields no usable data dict, makes the loop
sleep the poll interval and continue against the same deadline: the failure
is never surfaced, and the loop clock advances only by the sleep. -/
theorem transient_query_failure_retries (queries : Nat → Option RawResponse)
    (dF : List String → List String) (interval timeout : Nat) (hi : 0 < interval)
    (k e : Nat) (he : e < timeout)
    (hq : queries k = none ∨ ∃ r, queries k = some r ∧
        (r.code ≠ some 1000 ∨ (r.data.getD emptyTaskData).isEmpty = true)) :
    wait_and_download queries dF interval timeout hi k e =
      wait_and_download queries dF interval timeout hi (k + 1) (e + interval) := by
  have hobs : obsData queries k = none := by
    unfold obsData
    rcases hq with hnone | ⟨r, hr, hcase⟩
    · rw [hnone]
      rfl
    · rw [hr]
      unfold query_task_status
      rcases hcase with hcode | hempty
      · simp [hcode, usableData]
      · by_cases hcode : r.code = some 1000
        · simp [hcode, usableData, hempty]
        · simp [hcode, usableData]
  exact wait_eq_retry_none queries dF interval timeout hi k e he hobs

/-- A concrete query stream whose first query raises a transport error. -/
def qW3 : Nat → Option RawResponse := fun _ => none

/-- Witness for C3: on `qW3` the first iteration retries. -/
theorem transient_query_failure_retries_witness :
    wait_and_download qW3 (fun l => l) 5 300 (Nat.succ_pos 4) 0 0 =
      wait_and_download qW3 (fun l => l) 5 300 (Nat.succ_pos 4) 1 5 := by
  exact transient_query_failure_retries qW3 (fun l => l) 5 300 (Nat.succ_pos 4) 0 0
    (by decide) (Or.inl rfl)

/-- C10: a successful (response code 1000) status response whose data
payload is the empty dict is treated exactly like a failed query: the loop
behaves as if that query had raised (replacing it by a transport failure
changes nothing), sleeping the poll interval and retrying without examining
any status field, so such a response can never terminate polling. -/
theorem empty_data_treated_as_failure (queries : Nat → Option RawResponse)
    (dF : List String → List String) (interval timeout : Nat) (hi : 0 < interval)
    (k e : Nat) (r : RawResponse) (hk : queries k = some r)
    (hcode : r.code = some 1000)
    (hempty : (r.data.getD emptyTaskData).isEmpty = true) :
    wait_and_download queries dF interval timeout hi k e =
      wait_and_download (fun j => if j = k then none else queries j) dF interval timeout hi k e
    ∧ (e < timeout →
        wait_and_download queries dF interval timeout hi k e =
          wait_and_download queries dF interval timeout hi (k + 1) (e + interval)) := by
  have hobs : obsData queries k = none := by
    unfold obsData query_task_status
    rw [hk]
    simp [hcode, usableData, hempty]
  constructor
  · by_cases h : e < timeout
    · rw [wait_eq_retry_none queries dF interval timeout hi k e h hobs]
      have hobs2 : obsData (fun j => if j = k then none else queries j) k = none := by
        simp [obsData, query_task_status, usableData]
      rw [wait_eq_retry_none _ dF interval timeout hi k e h hobs2]
      apply wait_congr dF interval timeout hi (timeout - (e + interval)) (k + 1) (e + interval)
        _ _ (le_refl _)
      intro j hj
      have hne : j ≠ k := by omega
      simp [hne]
    · rw [wait_eq_timeout queries dF interval timeout hi k e h,
        wait_eq_timeout _ dF interval timeout hi k e h]
  · intro h
    exact wait_eq_retry_none queries dF interval timeout hi k e h hobs

/-- A concrete query stream whose first response is a code-1000 success with
an empty data dict. -/
def qW10 : Nat → Option RawResponse := fun j =>
  if j = 0 then some ⟨some 1000, some emptyTaskData⟩ else none

/-- Witness for C10 on `qW10`. -/
theorem empty_data_treated_as_failure_witness :
    (wait_and_download qW10 (fun l => l) 5 300 (Nat.succ_pos 4) 0 0 =
      wait_and_download (fun j => if j = 0 then none else qW10 j) (fun l => l) 5 300
        (Nat.succ_pos 4) 0 0)
    ∧ ((0 : Nat) < 300 →
        wait_and_download qW10 (fun l => l) 5 300 (Nat.succ_pos 4) 0 0 =
          wait_and_download qW10 (fun l => l) 5 300 (Nat.succ_pos 4) 1 5) := by
  exact empty_data_treated_as_failure qW10 (fun l => l) 5 300 (Nat.succ_pos 4) 0 0
    ⟨some 1000, some emptyTaskData⟩ (by decide) (by decide) (by decide)

/-- Embedding of the per-URL download loop inside the completed branch of
`wait_and_download` (image script lines 292-301, video script lines 317-329):
`dl i u` is the outcome of downloading URL `u` at result index `i` (`some
path` on success, `none` on a logged-and-skipped failure); successes are
appended in order. -/
def download_results (dl : Nat → String → Option String) : Nat → List String → List String
  | _, [] => []
  | i, u :: rest =>
    match dl i u with
    | some p => p :: download_results dl (i + 1) rest
    | none => download_results dl (i + 1) rest

lemma download_results_eq_filterMap (dl : Nat → String → Option String) :
    ∀ us k, download_results dl k us =
      (List.enumFrom k us).filterMap (fun p => dl p.1 p.2) := by
  intro us
  induction us with
  | nil => intro k; rfl
  | cons u rest ih =>
    intro k
    show (match dl k u with
      | some p => p :: download_results dl (k + 1) rest
      | none => download_results dl (k + 1) rest) = _
    rw [show List.enumFrom k (u :: rest) = (k, u) :: List.enumFrom (k + 1) rest from rfl,
      List.filterMap_cons]
    cases dl k u with
    | none => exact ih (k + 1)
    | some p => rw [ih (k + 1)]

lemma download_results_mem (dl : Nat → String → Option String) :
    ∀ us k j (hj : j < us.length) p, dl (k + j) (us.get ⟨j, hj⟩) = some p →
      p ∈ download_results dl k us := by
  intro us
  induction us with
  | nil =>
    intro k j hj
    exact absurd hj (by simp)
  | cons u rest ih =>
    intro k j hj p hp
    cases j with
    | zero =>
      show p ∈ (match dl k u with
        | some q => q :: download_results dl (k + 1) rest
        | none => download_results dl (k + 1) rest)
      have hk : dl k u = some p := by simpa using hp
      rw [hk]
      exact List.mem_cons_self p _
    | succ j2 =>
      have hj2 : j2 < rest.length := by simpa using hj
      have hshift : k + (j2 + 1) = (k + 1) + j2 := by omega
      have hp2 : dl ((k + 1) + j2) (rest.get ⟨j2, hj2⟩) = some p := by
        rw [← hshift]
        simpa using hp
      have hmem := ih (k + 1) j2 hj2 p hp2
      show p ∈ (match dl k u with
        | some q => q :: download_results dl (k + 1) rest
        | none => download_results dl (k + 1) rest)
      cases dl k u with
      | none => exact hmem
      | some q => exact List.mem_cons_of_mem q hmem

/-- C6: when the loop reaches a Completed payload, a download failure at any
index `i` does not abort the call: the loop still returns normally, every
later index is still attempted (any later success appears in the result),
and the returned list is exactly the successful downloads in original URL
order, i.e. the failed indices and only they are dropped. -/
theorem download_failure_skipped (dl : Nat → String → Option String)
    (urls : List String) (i : Nat) (hiu : i < urls.length)
    (hfail : dl i (urls.get ⟨i, hiu⟩) = none) :
    download_results dl 0 urls = urls.enum.filterMap (fun p => dl p.1 p.2)
    ∧ (∀ j (hj : j < urls.length), i < j → ∀ p, dl j (urls.get ⟨j, hj⟩) = some p →
        p ∈ download_results dl 0 urls)
    ∧ (∀ queries interval timeout (hi : 0 < interval) k e d,
        e < timeout → obsData queries k = some d → d.status = some 3 →
        d.url = some urls →
        wait_and_download queries (download_results dl 0) interval timeout hi k e =
          PollResult.completed urls (download_results dl 0 urls)) := by
  refine ⟨download_results_eq_filterMap dl urls 0, ?_, ?_⟩
  · intro j hj hij p hp
    apply download_results_mem dl urls 0 j hj p
    simpa using hp
  · intro queries interval timeout hi k e d he hobs h3 hurl
    rw [wait_eq_completed queries (download_results dl 0) interval timeout hi k e he d hobs h3,
      hurl]
    have hne : urls ≠ [] := by
      intro hnil
      rw [hnil] at hiu
      exact absurd hiu (by simp)
    simp [hne]

/-- A concrete download oracle failing at index 0 and succeeding at index 1. -/
def dlW : Nat → String → Option String := fun j _ =>
  if j = 0 then none else some "f1"

/-- Witness for C6: with `dlW` on two URLs, the failure at index 0 is
skipped and the success at index 1 is still in the returned list. -/
theorem download_failure_skipped_witness :
    "f1" ∈ download_results dlW 0 ["http://x/a.png", "http://x/b.png"] := by
  exact (download_failure_skipped dlW ["http://x/a.png", "http://x/b.png"] 0 (by decide)
    (by decide)).2.1 1 (by decide) (by decide) "f1" (by decide)

/-- Embedding of the extension derivation in `download_image` (image script
lines 82-93).  `ctExt` is the result of `mimetypes.guess_extension` on the
declared content type (`none` when the type implies no extension),
`urlSuffix` is `Path(urlparse(url).path).suffix`.  The `.jpe` alias is
rewritten to `.jpg`; a falsy candidate falls back to the URL suffix; a falsy
or longer-than-6 candidate falls back to `.png`. -/
def derive_ext_image (ctExt : Option String) (urlSuffix : String) : String :=
  let ext0 : Option String := if ctExt = some ".jpe" then some ".jpg" else ctExt
  let ext1 : String :=
    match ext0 with
    | none => urlSuffix
    | some s => if s = "" then urlSuffix else s
  if ext1 = "" ∨ 6 < ext1.length then ".png" else ext1

/-- Embedding of the extension derivation in the video download branch
(video script lines 317-322): the suffix of the URL path, with `.mp4` as the
fallback when it is empty or longer than 5 characters.  The declared content
type of the payload is not consulted at all. -/
def derive_ext_video (urlSuffix : String) : String :=
  if urlSuffix = "" ∨ 5 < urlSuffix.length then ".mp4" else urlSuffix

/-- Modelled from the spec: the extension-derivation order the spec claims
for the video modality, namely prefer the extension implied by the declared
content type, fall back to the URL path suffix, and fall back to `.mp4` for
an empty or longer-than-5 candidate.  Used only to compare the claimed order
with the code's `derive_ext_video`, which has no content-type input. -/
def derive_ext_video_specOrder (ctExt : Option String) (urlSuffix : String) : String :=
  let ext1 : String :=
    match ctExt with
    | none => urlSuffix
    | some s => if s = "" then urlSuffix else s
  if ext1 = "" ∨ 5 < ext1.length then ".mp4" else ext1

/-- Counterexample for C5: with declared content type implying `.mov` and a
URL path ending in `.avi`, the claimed order yields `.mov` for video, but
the video code derives the extension from the URL path alone and yields
`.avi`. -/
theorem video_ext_ignores_content_type :
    derive_ext_video_specOrder (some ".mov") ".avi" = ".mov"
    ∧ derive_ext_video ".avi" = ".avi"
    ∧ (".mov" : String) ≠ ".avi" := by
  decide

/-- C5 as amended: the image derivation prefers the content-type extension
(with `.jpe` rewritten to `.jpg`), falls back to the URL suffix when the
content type implies none, and falls back to `.png` for an empty or
longer-than-6 candidate; the video derivation ignores the content type and
uses the URL suffix with `.mp4` as fallback for an empty or longer-than-5
candidate; both are total and always yield a non-empty extension of bounded
length (at most 6 for image, at most 5 for video). -/
theorem ext_derivation_amended :
    (∀ ctExt urlSuffix, derive_ext_image ctExt urlSuffix ≠ ""
      ∧ (derive_ext_image ctExt urlSuffix).length ≤ 6)
    ∧ (∀ e u, e ≠ "" → e ≠ ".jpe" → e.length ≤ 6 → derive_ext_image (some e) u = e)
    ∧ (∀ u, derive_ext_image (some ".jpe") u = ".jpg")
    ∧ (∀ u, u ≠ "" → u.length ≤ 6 → derive_ext_image none u = u)
    ∧ (∀ u, u = "" ∨ 6 < u.length → derive_ext_image none u = ".png")
    ∧ (∀ e u, e ≠ ".jpe" → 6 < e.length → derive_ext_image (some e) u = ".png")
    ∧ (∀ u, derive_ext_video u ≠ "" ∧ (derive_ext_video u).length ≤ 5)
    ∧ (∀ u, u ≠ "" → u.length ≤ 5 → derive_ext_video u = u)
    ∧ (∀ u, u = "" ∨ 5 < u.length → derive_ext_video u = ".mp4") := by
  have key6 : ∀ s : String, (if s = "" ∨ 6 < s.length then ".png" else s) ≠ ""
      ∧ (if s = "" ∨ 6 < s.length then ".png" else s).length ≤ 6 := by
    intro s
    split
    · exact ⟨by decide, by decide⟩
    · rename_i hcond
      push_neg at hcond
      exact ⟨hcond.1, by omega⟩
  have key5 : ∀ s : String, (if s = "" ∨ 5 < s.length then ".mp4" else s) ≠ ""
      ∧ (if s = "" ∨ 5 < s.length then ".mp4" else s).length ≤ 5 := by
    intro s
    split
    · exact ⟨by decide, by decide⟩
    · rename_i hcond
      push_neg at hcond
      exact ⟨hcond.1, by omega⟩
  refine ⟨?_, ?_, ?_, ?_, ?_, ?_, ?_, ?_, ?_⟩
  · intro ctExt urlSuffix
    exact key6 (match (if ctExt = some ".jpe" then some ".jpg" else ctExt) with
      | none => urlSuffix
      | some s => if s = "" then urlSuffix else s)
  · intro e u he hjpe hlen
    have hnl : ¬ 6 < e.length := by omega
    simp [derive_ext_image, he, hjpe, hnl]
  · intro u
    simp [derive_ext_image]
    decide
  · intro u hu hlen
    have hnl : ¬ 6 < u.length := by omega
    simp [derive_ext_image, hu, hnl]
  · intro u hcase
    rcases hcase with hu | hu
    · subst hu
      decide
    · simp [derive_ext_image, hu]
  · intro e u hjpe hlen
    have he : e ≠ "" := by
      intro hcon
      rw [hcon] at hlen
      simp at hlen
    simp [derive_ext_image, he, hjpe, hlen]
  · intro u
    exact key5 u
  · intro u hu hlen
    have hnl : ¬ 5 < u.length := by omega
    simp [derive_ext_video, hu, hnl]
  · intro u hcase
    rcases hcase with hu | hu
    · subst hu
      decide
    · simp [derive_ext_video, hu]

/-- Witness for C5 as amended, at concrete inputs: a good content-type
extension wins for image, and an overlong URL suffix falls back to `.mp4`
for video. -/
theorem ext_derivation_amended_witness :
    derive_ext_image (some ".webp") ".xyz" = ".webp"
    ∧ derive_ext_video ".longext" = ".mp4" := by
  exact ⟨ext_derivation_amended.2.1 ".webp" ".xyz" (by decide) (by decide) (by decide),
    ext_derivation_amended.2.2.2.2.2.2.2.2 ".longext" (Or.inr (by decide))⟩

/-- Counterexample for C9: the video table maps raw code 1 to "Pending",
not to "Queued", so it is not the image table extended by the Uploading
entry; and code 5 yields "Uploading", which lies outside the five-member
state set the claim enumerates. -/
theorem video_status_table_counterexample :
    TASK_STATUS 1 = some "Pending"
    ∧ TASK_STATUS 1 ≠ some "Queued"
    ∧ TASK_STATUS 1 ≠ IMAGE_STATUS 1
    ∧ task_status_text (some 5) = "Uploading"
    ∧ ("Uploading" : String) ∉
        (["Queued", "Processing", "Completed", "Failed", "Unknown"] : List String) := by
  decide

/-- C9 as amended: the image table maps 1, 2, 3, 4 to Queued, Processing,
Completed, Failed; the video table maps 1, 2, 3, 4, 5 to Pending,
Processing, Completed, Failed, Uploading (so the two tables differ at code 1
as well as code 5); every code absent from a table (and a missing status
field) maps to Unknown; and the derived state text always lies in the
corresponding enumerated set. -/
theorem status_tables_spec :
    IMAGE_STATUS 1 = some "Queued" ∧ IMAGE_STATUS 2 = some "Processing"
    ∧ IMAGE_STATUS 3 = some "Completed" ∧ IMAGE_STATUS 4 = some "Failed"
    ∧ TASK_STATUS 1 = some "Pending" ∧ TASK_STATUS 2 = some "Processing"
    ∧ TASK_STATUS 3 = some "Completed" ∧ TASK_STATUS 4 = some "Failed"
    ∧ TASK_STATUS 5 = some "Uploading"
    ∧ (∀ c : Int, c ≠ 1 → c ≠ 2 → c ≠ 3 → c ≠ 4 → image_status_text (some c) = "Unknown")
    ∧ (∀ c : Int, c ≠ 1 → c ≠ 2 → c ≠ 3 → c ≠ 4 → c ≠ 5 →
        task_status_text (some c) = "Unknown")
    ∧ (∀ s, image_status_text s ∈ ["Queued", "Processing", "Completed", "Failed", "Unknown"])
    ∧ (∀ s, task_status_text s ∈
        ["Pending", "Processing", "Completed", "Failed", "Uploading", "Unknown"]) := by
  refine ⟨by decide, by decide, by decide, by decide, by decide, by decide, by decide,
    by decide, by decide, ?_, ?_, ?_, ?_⟩
  · intro c h1 h2 h3 h4
    simp [image_status_text, IMAGE_STATUS, h1, h2, h3, h4]
  · intro c h1 h2 h3 h4 h5
    simp [task_status_text, TASK_STATUS, h1, h2, h3, h4, h5]
  · intro s
    cases s with
    | none => simp [image_status_text]
    | some c =>
      simp only [image_status_text, IMAGE_STATUS]
      split_ifs <;> decide
  · intro s
    cases s with
    | none => simp [task_status_text]
    | some c =>
      simp only [task_status_text, TASK_STATUS]
      split_ifs <;> decide

/-- Witness for C9 as amended: a code outside both tables maps to Unknown. -/
theorem status_tables_spec_witness :
    image_status_text (some 99) = "Unknown" ∧ task_status_text (some 99) = "Unknown" := by
  exact ⟨status_tables_spec.2.2.2.2.2.2.2.2.2.1 99 (by decide) (by decide) (by decide)
      (by decide),
    status_tables_spec.2.2.2.2.2.2.2.2.2.2.1 99 (by decide) (by decide) (by decide)
      (by decide) (by decide)⟩

/-- Embedding of `os.path.basename` for POSIX paths: the part after the last
slash. -/
def basename (p : String) : String :=
  String.mk (p.toList.foldl (fun acc c => if c = '/' then [] else acc ++ [c]) [])

/-- One entry of the multipart `files` list passed to `requests.post`: a
plain text field `("field", (None, value))` or an attached file
`("field", (filename, handle))`. -/
inductive FormPart where
  | text (field value : String)
  | file (field filename : String)
deriving DecidableEq, Repr

/-- The attached-file entries of a form, as (field, filename) pairs. -/
def filePartFields (ps : List FormPart) : List (String × String) :=
  ps.filterMap fun p =>
    match p with
    | FormPart.file f n => some (f, n)
    | FormPart.text _ _ => none

/-- Embedding of the `files` construction in `generate_image` (image script
lines 132-154): prompt and resolution fields, the model-specific field, then
either one `sourceImage` attachment per local path (when the list is
truthy), or else the `imageUrl` text field (when the URL is truthy). -/
def build_files_image (prompt resolution model : String)
    (source_images : Option (List String)) (image_url : Option String) : List FormPart :=
  let files := [FormPart.text "prompt" prompt, FormPart.text "resolution" resolution]
  let files := if model = "seedreamv4" ∨ model = "seedreamv45" then
      files ++ [FormPart.text "category" model]
    else if model = "zimage" then files ++ [FormPart.text "prompt_extend" "1"]
    else files
  let srcs := source_images.getD []
  if srcs ≠ [] then
    files ++ srcs.map (fun p => FormPart.file "sourceImage" (basename p))
  else if image_url.getD "" ≠ "" then
    files ++ [FormPart.text "imageUrl" (image_url.getD "")]
  else files

/-- Embedding of the `files` construction in `generate_video` (video script
lines 137-162): the five text fields, the optional seed and seedancev2-only
flags, then either one `sourceImage` attachment per local path capped at two
(`source_images[:2]`), or else the `imageUrl` text field. -/
def build_files_video (prompt ratio : String) (duration : Int) (resolution fps : String)
    (seed : Option Int) (generate_audio return_last_frame : Bool) (model : String)
    (source_images : Option (List String)) (image_url : Option String) : List FormPart :=
  let files := [FormPart.text "prompt" prompt, FormPart.text "ratio" ratio,
    FormPart.text "duration" (toString duration), FormPart.text "resolution" resolution,
    FormPart.text "fps" fps]
  let files := files ++ (match seed with
    | some s => [FormPart.text "seed" (toString s)]
    | none => [])
  let files := files ++ (if generate_audio ∧ model = "seedancev2" then
      [FormPart.text "generate_audio" "1"] else [])
  let files := files ++ (if return_last_frame ∧ model = "seedancev2" then
      [FormPart.text "return_last_frame" "1"] else [])
  let srcs := source_images.getD []
  if srcs ≠ [] then
    files ++ (srcs.take 2).map (fun p => FormPart.file "sourceImage" (basename p))
  else if image_url.getD "" ≠ "" then
    files ++ [FormPart.text "imageUrl" (image_url.getD "")]
  else files

lemma filePartFields_append (a b : List FormPart) :
    filePartFields (a ++ b) = filePartFields a ++ filePartFields b :=
  List.filterMap_append a b _

lemma filePartFields_sources (xs : List String) :
    filePartFields (xs.map (fun p => FormPart.file "sourceImage" (basename p))) =
      xs.map (fun p => ("sourceImage", basename p)) := by
  induction xs with
  | nil => rfl
  | cons x rest ih =>
    simp only [List.map_cons, filePartFields, List.filterMap_cons] at *
    rw [ih]

lemma text_notin_sources (f v : String) (xs : List String) :
    FormPart.text f v ∉ xs.map (fun p => FormPart.file "sourceImage" (basename p)) := by
  intro hmem
  rcases List.mem_map.mp hmem with ⟨x, _, hx⟩
  cases hx

/-- C4: when a non-empty list of local source images and a source-image URL
are both supplied, the built multipart form carries no `imageUrl` field at
all, and its attached files are exactly the `sourceImage` entries derived
from the local paths (all of them for image, the first two for video): local
paths take precedence over the URL. -/
theorem local_sources_override_image_url (prompt resolution model ratio fps : String)
    (duration : Int) (seed : Option Int) (generate_audio return_last_frame : Bool)
    (l : List String) (hl : l ≠ []) (image_url : Option String) :
    (∀ v, FormPart.text "imageUrl" v ∉
        build_files_image prompt resolution model (some l) image_url)
    ∧ filePartFields (build_files_image prompt resolution model (some l) image_url) =
        l.map (fun p => ("sourceImage", basename p))
    ∧ (∀ v, FormPart.text "imageUrl" v ∉
        build_files_video prompt ratio duration resolution fps seed generate_audio
          return_last_frame model (some l) image_url)
    ∧ filePartFields (build_files_video prompt ratio duration resolution fps seed
          generate_audio return_last_frame model (some l) image_url) =
        (l.take 2).map (fun p => ("sourceImage", basename p)) := by
  refine ⟨?_, ?_, ?_, ?_⟩
  · intro v
    simp only [build_files_image, Option.getD_some]
    rw [if_pos hl]
    intro hmem
    rcases List.mem_append.mp hmem with hbase | hsrc
    · revert hbase
      split_ifs <;> simp
    · exact text_notin_sources "imageUrl" v l hsrc
  · simp only [build_files_image, Option.getD_some]
    rw [if_pos hl, filePartFields_append, filePartFields_sources]
    have hbase : filePartFields (if model = "seedreamv4" ∨ model = "seedreamv45" then
        [FormPart.text "prompt" prompt, FormPart.text "resolution" resolution] ++
          [FormPart.text "category" model]
      else if model = "zimage" then
        [FormPart.text "prompt" prompt, FormPart.text "resolution" resolution] ++
          [FormPart.text "prompt_extend" "1"]
      else [FormPart.text "prompt" prompt, FormPart.text "resolution" resolution]) = [] := by
      split_ifs <;> rfl
    rw [hbase, List.nil_append]
  · intro v
    simp only [build_files_video, Option.getD_some]
    rw [if_pos hl]
    intro hmem
    rcases List.mem_append.mp hmem with hbase | hsrc
    · rcases List.mem_append.mp hbase with hbase2 | hlast
      · rcases List.mem_append.mp hbase2 with hbase3 | haudio
        · rcases List.mem_append.mp hbase3 with hfive | hseed
          · revert hfive
            simp
          · revert hseed
            cases seed <;> simp
        · revert haudio
          split_ifs <;> simp
      · revert hlast
        split_ifs <;> simp
    · exact text_notin_sources "imageUrl" v (l.take 2) hsrc
  · simp only [build_files_video, Option.getD_some]
    rw [if_pos hl, filePartFields_append, filePartFields_sources]
    rw [filePartFields_append, filePartFields_append, filePartFields_append]
    have h5 : filePartFields [FormPart.text "prompt" prompt, FormPart.text "ratio" ratio,
        FormPart.text "duration" (toString duration), FormPart.text "resolution" resolution,
        FormPart.text "fps" fps] = [] := rfl
    have hseed : filePartFields (match seed with
        | some s => [FormPart.text "seed" (toString s)]
        | none => []) = [] := by
      cases seed <;> rfl
    have haudio : filePartFields (if generate_audio ∧ model = "seedancev2" then
        [FormPart.text "generate_audio" "1"] else []) = [] := by
      split_ifs <;> rfl
    have hlast : filePartFields (if return_last_frame ∧ model = "seedancev2" then
        [FormPart.text "return_last_frame" "1"] else []) = [] := by
      split_ifs <;> rfl
    rw [h5, hseed, haudio, hlast]
    simp

/-- Witness for C4 at a concrete request carrying both a local source image
and a source-image URL. -/
theorem local_sources_override_image_url_witness :
    (∀ v, FormPart.text "imageUrl" v ∉
        build_files_image "a cat" "2K" "seedreamv4" (some ["dir/cat.png"])
          (some "http://img"))
    ∧ filePartFields (build_files_image "a cat" "2K" "seedreamv4" (some ["dir/cat.png"])
        (some "http://img")) = [("sourceImage", "cat.png")] := by
  have h := local_sources_override_image_url "a cat" "2K" "seedreamv4" "16:9" "24" 5 none
    false false ["dir/cat.png"] (by decide) (some "http://img")
  exact ⟨h.1, by rw [h.2.1]; decide⟩

/-- Embedding of the per-model duration cap in the video `main` (video
script line 407): 15 seconds for seedancev2, 10 for every other model. -/
def video_max_duration (model : String) : Int :=
  if model = "seedancev2" then 15 else 10

/-- How the phase of the video `main` from validation through submission
ends: a `sys.exit(1)` from a validation check, or whatever the submission
step produced. -/
inductive RunOutcome where
  | validationExit (msg : String)
  | submitted (taskId : Option String)
  | submitExit
deriving DecidableEq, Repr

/-- What the submission collaborator reports back to `main`. -/
inductive SubmitOutcome where
  | taskCreated (taskId : Option String)
  | exitFailure
deriving DecidableEq, Repr

/-- Embedding of the video `main` from the validation checks to the
`generate_video` call (video script lines 406-431): the duration bounds
check, then the max-two-source-images check, and only past both the
submission collaborator is invoked. -/
def video_main_run (submit : Unit → SubmitOutcome) (model : String) (duration : Int)
    (sources : Option (List String)) : RunOutcome :=
  let maxd := video_max_duration model
  if duration < 5 ∨ maxd < duration then
    RunOutcome.validationExit
      ("duration must be between 5 and " ++ toString maxd ++ " seconds for " ++ model)
  else if 2 < (sources.getD []).length then
    RunOutcome.validationExit "maximum 2 source images allowed"
  else
    match submit () with
    | SubmitOutcome.taskCreated t => RunOutcome.submitted t
    | SubmitOutcome.exitFailure => RunOutcome.submitExit

/-- C7: a request violating the modality constraints (duration outside the
model's bounds, or more than two source images) makes the video `main` exit
with a validation error whose message does not depend on the submission
collaborator: the same validation exit results for every `submit`, so the
submit step is never reached. -/
theorem validation_precedes_submit (model : String) (duration : Int)
    (sources : Option (List String))
    (hviol : duration < 5 ∨ video_max_duration model < duration ∨
      2 < (sources.getD []).length) :
    ∃ msg, ∀ submit, video_main_run submit model duration sources =
      RunOutcome.validationExit msg := by
  by_cases hdur : duration < 5 ∨ video_max_duration model < duration
  · refine ⟨"duration must be between 5 and " ++ toString (video_max_duration model) ++
      " seconds for " ++ model, ?_⟩
    intro submit
    unfold video_main_run
    rw [if_pos hdur]
  · refine ⟨"maximum 2 source images allowed", ?_⟩
    intro submit
    have hsrc : 2 < (sources.getD []).length := by
      rcases hviol with h1 | h2 | h3
      · exact absurd (Or.inl h1) hdur
      · exact absurd (Or.inr h2) hdur
      · exact h3
    unfold video_main_run
    rw [if_neg hdur, if_pos hsrc]

/-- Witness for C7: the spec's scenario, duration 20 on a model capped at
10 seconds. -/
theorem validation_precedes_submit_witness :
    ∃ msg, ∀ submit, video_main_run submit "seedancev1profast" 20 none =
      RunOutcome.validationExit msg := by
  exact validation_precedes_submit "seedancev1profast" 20 none (Or.inr (Or.inl (by decide)))

/-- The `data` dict of a submit response: the `taskid` key the scripts
read, plus a count of any other keys. -/
structure SubmitData where
  taskid : Option String
  extraKeys : Nat
deriving DecidableEq, Repr

/-- The JSON body of one submit HTTP response. -/
structure SubmitResponse where
  code : Option Int
  data : Option SubmitData
deriving DecidableEq, Repr

/-- What the `requests.post` call of the submission step does: raise, or
return a response whose `.json()` either raises (`none`) or parses. -/
inductive PostBehavior where
  | raises
  | returns (json : Option SubmitResponse)
deriving DecidableEq, Repr

/-- How the submission step of `generate_image` / `generate_video` exits. -/
inductive SubmitExit where
  | taskCreated (taskId : Option String)
  | exitFailure
deriving DecidableEq, Repr

/-- The `data.taskid` field of a submit response body, as read by
`result.get("data", \x7b\x7d).get("taskid")`. -/
def submit_taskid (r : SubmitResponse) : Option String :=
  (r.data.getD ⟨none, 0⟩).taskid

/-- Embedding of the file-handle lifecycle of `generate_image` (image script
lines 147-199) and `generate_video` (video script lines 154-210): one handle
is opened per local source image (for video, per image among the first two)
before the `try` block; the handles are closed only on the line directly
after `requests.post` returns.  The second component is the number of
handles still open when the function exits: if the post raises, the except
handler logs and calls `sys.exit(1)` without closing anything. -/
def generate_submit (source_images : Option (List String)) (cap : Option Nat)
    (post : PostBehavior) : SubmitExit × Nat :=
  let srcs := source_images.getD []
  let opened := (match cap with
    | some c => srcs.take c
    | none => srcs).length
  match post with
  | PostBehavior.raises => (SubmitExit.exitFailure, opened)
  | PostBehavior.returns none => (SubmitExit.exitFailure, 0)
  | PostBehavior.returns (some r) =>
    if r.code = some 1000 then (SubmitExit.taskCreated (submit_taskid r), 0)
    else (SubmitExit.exitFailure, 0)

/-- C8 evaluated at the failing input: submitting with one opened local
source image while `requests.post` raises a network error exits the process
with that handle still open — the code closes handles only on the line
after a successful post, so the claimed release on every exit path fails. -/
theorem submit_leaks_handle_on_network_error :
    generate_submit (some ["cat.png"]) none PostBehavior.raises =
      (SubmitExit.exitFailure, 1)
    ∧ generate_submit (some ["cat.png"]) none
        (PostBehavior.returns (some ⟨some 1000, some ⟨some "t1", 0⟩⟩)) =
      (SubmitExit.taskCreated (some "t1"), 0) := by
  decide
